import Mathlib

/-!
Shallow embedding of `src/spyder/plugins/editor/lsp/manager.py` (class
`LSPManager`): a supervisor for per-language LSP client connections.

Modelling conventions:
- Python dicts keyed by strings become association lists (`List (String × _)`)
  with Python dict semantics: assignment to an existing key updates the entry
  in place (keeping its position), assignment to a fresh key appends.
- Calls delegated to an `LSPClient` instance (start, stop, register_file,
  perform_request, send_plugin_configurations, initialize) and to `os.mkdir`
  are recorded as events in a trace, since the client object and the file
  system are external collaborators.
- `os.environ` flags, the active-project query, `get_conf_path`,
  `getcwd_or_home` and `select_port` are external inputs, carried as fields of
  the manager state, fixed at construction (except the file-system set, which
  `os.mkdir` extends).
- Operations that can raise a Python exception return the state reached at the
  raise point together with `Except.error`; the partial mutations made before
  the raise persist, as they do on the Python object.
-/

/-- `LSPManager.STOPPED` / `LSPManager.RUNNING` (manager.py lines 34-35). -/
inductive Status where
  | stopped
  | running
deriving DecidableEq, Repr

/-- The server configuration dict stored per language: the restart-relevant
keys `cmd`, `args`, `host`, `port`, `external` (manager.py line 176) plus the
per-plugin settings under the key `configurations` (line 190), kept opaque. -/
structure ServerConfig where
  cmd : String
  args : String
  host : String
  port : Nat
  external : Bool
  configurations : String
deriving DecidableEq, Repr

/-- The manager-visible part of an `LSPClient` instance: the constructor
arguments of `LSPClient(parent, server_settings, folder, language)` (manager.py
lines 138-142) plus the plugin types replayed into it (lines 144-146).
`folder` is mutable (reinitialization, line 113). -/
structure LSPClient where
  serverSettings : ServerConfig
  folder : String
  language : String
  pluginTypes : List (String × String)
deriving DecidableEq, Repr

/-- One entry of `self.clients`: `{'status': ..., 'config': ..., 'instance':
...}` (manager.py lines 54-58). The `instance` slot is called `inst` because
`instance` is a Lean keyword. -/
structure ClientRecord where
  status : Status
  config : ServerConfig
  inst : Option LSPClient
deriving DecidableEq, Repr

/-- Observable calls made by the manager on its external collaborators. -/
inductive Event where
  | clientStart (language : String)
  | clientStop (language : String)
  | clientRegisterFile (language filename signal : String)
  | clientPerformRequest (language request params : String)
  | clientSendConfigurations (language configurations : String)
  | clientInitialize (language folder : String)
  | mkdirCall (path : String)
deriving DecidableEq, Repr

/-- Dictionary lookup: `d[k]` / `k in d`, first matching key. -/
def alookup {α : Type} : List (String × α) → String → Option α
  | [], _ => none
  | (k, v) :: rest, key => if k = key then some v else alookup rest key

/-- Dictionary assignment `d[k] = v`: update the existing entry in place
(keeping its position) or append a fresh one, as a Python dict does. -/
def upsert {α : Type} : List (String × α) → String → α → List (String × α)
  | [], key, v => [(key, v)]
  | (k, w) :: rest, key, v =>
    if k = key then (key, v) :: rest else (k, w) :: upsert rest key v

/-- External inputs fixed when the manager is constructed. -/
structure Env where
  projectPath : Option String
  fsExists : List String
  confPath : String
  cwdOrHome : String
  ciTruthy : Bool
  spyTestUseIntrospection : Bool
  selectPort : Nat → Nat

/-- The mutable state of an `LSPManager` object together with its external
collaborators: `lsp_plugins`, `clients`, `register_queue` (manager.py lines
43-46), the ambient environment, and the trace of collaborator calls.
- `projectPath`: active project path if `self.main and self.main.projects`
  yields one (`none` or `some ""` model a falsy path, manager.py lines 82-86);
- `fsExists`: the set of paths for which `osp.exists` is true;
- `confPath`: the value of `get_conf_path('lsp_root_path')` (line 94);
- `cwdOrHome`: the value of `getcwd_or_home()` (line 98);
- `ciTruthy` / `spyTestUseIntrospection`: truthiness of `os.environ.get('CI')`
  and `os.environ.get('SPY_TEST_USE_INTROSPECTION')` (lines 125-126);
- `selectPort`: the `select_port(default_port)` allocator (line 135). -/
structure ManagerState where
  lspPlugins : List (String × String)
  clients : List (String × ClientRecord)
  registerQueue : List (String × List (String × String))
  projectPath : Option String
  fsExists : List String
  confPath : String
  cwdOrHome : String
  ciTruthy : Bool
  spyTestUseIntrospection : Bool
  selectPort : Nat → Nat
  trace : List Event

/-- `LSPManager.__init__` (manager.py lines 39-59): one Stopped record with a
`None` instance and an empty register queue per configured option of the
`lsp-server` section (`conf` lists that section, in enumeration order). -/
def initManager (conf : List (String × ServerConfig)) (env : Env) : ManagerState :=
  { lspPlugins := [],
    clients := conf.map (fun p => (p.1, { status := Status.stopped, config := p.2, inst := none })),
    registerQueue := conf.map (fun p => (p.1, ([] : List (String × String)))),
    projectPath := env.projectPath,
    fsExists := env.fsExists,
    confPath := env.confPath,
    cwdOrHome := env.cwdOrHome,
    ciTruthy := env.ciTruthy,
    spyTestUseIntrospection := env.spyTestUseIntrospection,
    selectPort := env.selectPort,
    trace := [] }

/-- `register_plugin_type` (manager.py lines 61-62). -/
def register_plugin_type (s : ManagerState) (type sig : String) : ManagerState :=
  { s with lspPlugins := upsert s.lspPlugins type sig }

/-- `register_file` (manager.py lines 64-70): dispatches on whether the
record's `instance` slot is `None`, not on `status`. The queue entry for a
known language always exists (created alongside the record), so the `getD []`
default is never taken on the states the manager builds. -/
def register_file (s : ManagerState) (language filename signal : String) : ManagerState :=
  match alookup s.clients language with
  | none => s
  | some language_client =>
    match language_client.inst with
    | none =>
      let q := ((alookup s.registerQueue language).getD []) ++ [(filename, signal)]
      { s with registerQueue := upsert s.registerQueue language q }
    | some c =>
      { s with trace := s.trace ++ [Event.clientRegisterFile c.language filename signal] }

/-- Truthiness of the project path obtained in manager.py lines 82-83. -/
def truthyPath : Option String → Bool
  | none => false
  | some p => p ≠ ""

/-- The path value `get_root_path` returns (manager.py lines 72-100),
separated from its `os.mkdir` side effect. -/
def root_path_value (s : ManagerState) (language : String) : String :=
  if truthyPath s.projectPath then s.projectPath.getD ""
  else if language = "python" then s.confPath
  else s.cwdOrHome

/-- `get_root_path` (manager.py lines 72-100): project path if one is active;
otherwise for `'python'` the `lsp_root_path` directory inside the config
folder, created with `os.mkdir` if absent; otherwise `getcwd_or_home()`. -/
def get_root_path (s : ManagerState) (language : String) : String × ManagerState :=
  if truthyPath s.projectPath then (s.projectPath.getD "", s)
  else if language = "python" then
    if s.fsExists.contains s.confPath then (s.confPath, s)
    else (s.confPath,
      { s with fsExists := s.confPath :: s.fsExists,
               trace := s.trace ++ [Event.mkdirCall s.confPath] })
  else (s.cwdOrHome, s)

/-- The configuration a freshly constructed instance receives: manager.py
lines 134-136 overwrite `config['port']` with `select_port(...)` unless the
configuration is external. The assignment mutates the stored config dict,
which the instance then shares. -/
def startedConfig (s : ManagerState) (cfg : ServerConfig) : ServerConfig :=
  if cfg.external then cfg else { cfg with port := s.selectPort cfg.port }

/-- `start_client` (manager.py lines 116-154). Returns the Python return
value `started`, which is computed at line 130 as `status == RUNNING`
*before* any transition. In the Stopped branch: select a port unless
external, construct the instance (its `folder` argument evaluates
`get_root_path`, which may `mkdir`), replay the registered plugin types,
call `instance.start()`, set status to RUNNING, then drain the queue. The
drain loop (lines 151-152) invokes `language_client.register_file(*entry)`
where `language_client` is the record *dict*, which has no `register_file`
attribute: with a nonempty queue the first iteration raises AttributeError,
leaving the queue uncleared (line 153 is not reached). -/
def start_client (s : ManagerState) (language : String) : ManagerState × Except String Bool :=
  match alookup s.clients language with
  | none => (s, Except.ok false)
  | some language_client =>
    let queue := (alookup s.registerQueue language).getD []
    if s.ciTruthy ∧ ¬ s.spyTestUseIntrospection then (s, Except.ok false)
    else if language_client.status = Status.stopped then
      let config := startedConfig s language_client.config
      let pr := get_root_path s language
      let inst0 : LSPClient :=
        { serverSettings := config, folder := pr.1, language := language,
          pluginTypes := pr.2.lspPlugins }
      let rec1 := { language_client with config := config, inst := some inst0 }
      let s2 := { pr.2 with
        clients := upsert pr.2.clients language { rec1 with status := Status.running },
        trace := pr.2.trace ++ [Event.clientStart language] }
      match queue with
      | [] => ({ s2 with registerQueue := upsert s2.registerQueue language [] },
               Except.ok false)
      | _ :: _ =>
        (s2, Except.error "AttributeError: dict object has no attribute register_file")
    else
      -- status is RUNNING: `started` was already true, nothing happens.
      (s, Except.ok true)

/-- `close_client` (manager.py lines 197-205): if the record is RUNNING, call
`instance.stop()` (the record holds a live instance whenever it is RUNNING,
see the reachability invariant below), then set status to STOPPED. The
`instance` slot is *not* cleared. -/
def close_client (s : ManagerState) (language : String) : ManagerState :=
  match alookup s.clients language with
  | none => s
  | some language_client =>
    let s1 :=
      if language_client.status = Status.running then
        { s with trace := s.trace ++ [Event.clientStop language] }
      else s
    let stoppedRecord := { language_client with status := Status.stopped }
    { s1 with clients := upsert s1.clients language stoppedRecord }

/-- `shutdown` (manager.py lines 156-159): `close_client` for every key of
`self.clients`, in dict iteration (= insertion) order. -/
def shutdownManager (s : ManagerState) : ManagerState :=
  (s.clients.map Prod.fst).foldl close_client s

/-- One iteration of the loop in `reinitialize_all_clients` (manager.py lines
108-114): for a RUNNING record, recompute the root path, assign it to
`instance.folder` and call `instance.initialize()`. A RUNNING record always
holds an instance (reachability invariant); the `none` case is dead code kept
only for totality. -/
def reinit_one (s : ManagerState) (language : String) : ManagerState :=
  match alookup s.clients language with
  | none => s
  | some language_client =>
    if language_client.status = Status.running then
      match language_client.inst with
      | some c =>
        let pr := get_root_path s language
        { pr.2 with
          clients := upsert pr.2.clients language
            { language_client with inst := some { c with folder := pr.1 } },
          trace := pr.2.trace ++ [Event.clientInitialize language pr.1] }
      | none => s
    else s

/-- `reinitialize_all_clients` (manager.py lines 102-114). -/
def reinitialize_all_clients (s : ManagerState) : ManagerState :=
  (s.clients.map Prod.fst).foldl reinit_one s

/-- Python `str.lower()`, used for `[l.lower() for l in LSP_LANGUAGES]`
(manager.py line 163): lower-case every character. -/
def strLower (s : String) : String := String.mk (s.data.map Char.toLower)

/-- `restart = any([current_config[x] != new_config[x] for x in
['cmd', 'args', 'host', 'port', 'external']])` (manager.py lines 176-178). -/
def restartNeeded (current_config new_config : ServerConfig) : Bool :=
  decide (current_config.cmd ≠ new_config.cmd) ||
  decide (current_config.args ≠ new_config.args) ||
  decide (current_config.host ≠ new_config.host) ||
  decide (current_config.port ≠ new_config.port) ||
  decide (current_config.external ≠ new_config.external)

/-- The loop body of `update_server_list` (manager.py lines 161-190), folded
over the refreshed `CONF.options('lsp-server')` enumeration (each option with
the value `CONF.get('lsp-server', option)`). Options whose name is not in
`[l.lower() for l in LSP_LANGUAGES]` are skipped. For a known language:
compute the restart diff (the `logger.debug` on line 172 only computes an
inequality and has no effect); on a restart while RUNNING, `close_client`,
replace the record wholesale with the fresh Stopped one, then `start_client`
(whose AttributeError, if any, propagates and aborts the loop). Without a
restart, a RUNNING record's instance gets `send_plugin_configurations(new)` —
the stored configuration is not touched. -/
def usl_go (lspLanguages : List String) :
    ManagerState → List (String × ServerConfig) → ManagerState × Except String Unit
  | s, [] => (s, Except.ok ())
  | s, (option, cfg) :: rest =>
    if option ∈ lspLanguages.map strLower then
      let freshRecord : ClientRecord :=
        { status := Status.stopped, config := cfg, inst := none }
      match alookup s.clients option with
      | none =>
        usl_go lspLanguages
          { s with clients := upsert s.clients option freshRecord,
                   registerQueue := upsert s.registerQueue option [] } rest
      | some current =>
        if restartNeeded current.config cfg then
          if current.status = Status.stopped then
            usl_go lspLanguages
              { s with clients := upsert s.clients option freshRecord } rest
          else
            let s1 := close_client s option
            let s2 := { s1 with clients := upsert s1.clients option freshRecord }
            match start_client s2 option with
            | (s3, Except.ok _) => usl_go lspLanguages s3 rest
            | (s3, Except.error e) => (s3, Except.error e)
        else
          if current.status = Status.running then
            let ev := Event.clientSendConfigurations option cfg.configurations
            usl_go lspLanguages { s with trace := s.trace ++ [ev] } rest
          else usl_go lspLanguages s rest
    else usl_go lspLanguages s rest

/-- `update_server_list` (manager.py lines 161-190). `lspLanguages` is the
`LSP_LANGUAGES` constant imported from `spyder.plugins.editor.lsp`; `newConf`
is the refreshed `lsp-server` configuration section. -/
def update_server_list (lspLanguages : List String)
    (newConf : List (String × ServerConfig)) (s : ManagerState) :
    ManagerState × Except String Unit :=
  usl_go lspLanguages s newConf

/-- `update_client_status` (manager.py lines 192-195). -/
def update_client_status (s : ManagerState) (active_set : List String) : ManagerState :=
  (s.clients.map Prod.fst).foldl
    (fun st language => if language ∈ active_set then st else close_client st language) s

/-- `send_request` (manager.py lines 207-212): dispatches on `status`, the
request goes to the record's instance only when RUNNING (a RUNNING record
always holds an instance; the event is keyed by the routing language). -/
def send_request (s : ManagerState) (language request params : String) : ManagerState :=
  match alookup s.clients language with
  | none => s
  | some language_client =>
    if language_client.status = Status.running then
      { s with trace := s.trace ++ [Event.clientPerformRequest language request params] }
    else s

/-- The manager-facing API, for quantifying over call sequences. -/
inductive Op where
  | registerPluginType (type sig : String)
  | registerFile (language filename signal : String)
  | getRootPath (language : String)
  | reinitializeAll
  | startClient (language : String)
  | closeClient (language : String)
  | shutdownAll
  | updateServerList (lspLanguages : List String) (newConf : List (String × ServerConfig))
  | updateClientStatus (active_set : List String)
  | sendRequest (language request params : String)

/-- Apply one API call; return values and raised exceptions go to the caller,
the state (including partial mutations made before a raise) persists. -/
def step (s : ManagerState) : Op → ManagerState
  | Op.registerPluginType t sig => register_plugin_type s t sig
  | Op.registerFile l f sig => register_file s l f sig
  | Op.getRootPath l => (get_root_path s l).2
  | Op.reinitializeAll => reinitialize_all_clients s
  | Op.startClient l => (start_client s l).1
  | Op.closeClient l => close_client s l
  | Op.shutdownAll => shutdownManager s
  | Op.updateServerList langs conf => (update_server_list langs conf s).1
  | Op.updateClientStatus act => update_client_status s act
  | Op.sendRequest l r p => send_request s l r p

/-- Run a sequence of API calls from a state. -/
def runOps (s : ManagerState) (ops : List Op) : ManagerState :=
  ops.foldl step s

/-- Stop/start collaborator calls concerning one language. -/
def lifecycleEvent (language : String) : Event → Bool
  | Event.clientStop l => l == language
  | Event.clientStart l => l == language
  | _ => false

/-- File-registration collaborator calls (to any instance). -/
def isRegisterFileEvent : Event → Bool
  | Event.clientRegisterFile _ _ _ => true
  | _ => false

/-- The stop calls `shutdown` makes: one per RUNNING record, in table order. -/
def stopEvents (clients : List (String × ClientRecord)) : List Event :=
  (clients.filter (fun p => decide (p.2.status = Status.running))).map
    (fun p => Event.clientStop p.1)

/-- The stop event `close_client clients k` emits, if any. -/
def stopEventFor (clients : List (String × ClientRecord)) (k : String) : Option Event :=
  match alookup clients k with
  | some rec => if rec.status = Status.running then some (Event.clientStop k) else none
  | none => none

/-- A record is well-formed when RUNNING implies a live instance. -/
def recordOK (r : ClientRecord) : Prop := r.status = Status.running → r.inst.isSome = true

/-- All records of the manager are well-formed. -/
def clientsOK (s : ManagerState) : Prop := ∀ p ∈ s.clients, recordOK p.2

/-- A sample Python server configuration (external, so `select_port` is not
consulted and the configured port is kept). -/
def pyCfg : ServerConfig :=
  { cmd := "pyls", args := "", host := "127.0.0.1", port := 2087,
    external := true, configurations := "cfgA" }

/-- `pyCfg` with only the per-plugin settings changed (no restart trigger). -/
def pyCfgB : ServerConfig := { pyCfg with configurations := "cfgB" }

/-- `pyCfg` with the port changed (a restart-triggering field). -/
def pyCfgC : ServerConfig := { pyCfg with port := 3000 }

/-- Sample environment: no active project, CI off, identity port allocator. -/
def env0 : Env :=
  { projectPath := none, fsExists := [], confPath := "/conf/lsp_root_path",
    cwdOrHome := "/home/user", ciTruthy := false,
    spyTestUseIntrospection := false, selectPort := fun n => n }

/-- A manager constructed with a single configured language `python`. -/
def s0 : ManagerState := initManager [("python", pyCfg)] env0

/-- The record `s0` holds for `python`. -/
def pyRec0 : ClientRecord := { status := Status.stopped, config := pyCfg, inst := none }

/-- `s0` after `start_client("python")`. -/
def sRun : ManagerState := (start_client s0 "python").1

/-- The record `sRun` holds for `python`. -/
def pyRecRun : ClientRecord :=
  { status := Status.running, config := pyCfg,
    inst := some { serverSettings := pyCfg, folder := "/conf/lsp_root_path",
                   language := "python", pluginTypes := [] } }

/-- `s0` after `start_client("python")` then `close_client("python")`. -/
def sClosed : ManagerState := runOps s0 [Op.startClient "python", Op.closeClient "python"]

/-- A manager with two configured languages, then `python` started. -/
def sTwoRun : ManagerState :=
  runOps (initManager [("python", pyCfg), ("r", pyCfg)] env0) [Op.startClient "python"]

/-! ### Association-list lemmas -/

theorem alookup_upsert_self {α : Type} (l : List (String × α)) (k : String) (v : α) :
    alookup (upsert l k v) k = some v := by
  induction l with
  | nil => simp [upsert, alookup]
  | cons p rest ih =>
    by_cases h : p.1 = k
    · simp [upsert, h, alookup]
    · simp [upsert, h, alookup, ih]

theorem alookup_upsert_ne {α : Type} (l : List (String × α)) (key k : String) (v : α)
    (h : k ≠ key) : alookup (upsert l key v) k = alookup l k := by
  have hks : ¬ key = k := fun hh => h hh.symm
  induction l with
  | nil => simp [upsert, alookup, hks]
  | cons p rest ih =>
    obtain ⟨pk, pv⟩ := p
    by_cases hp : pk = key
    · subst hp
      simp [upsert, alookup, hks]
    · simp [upsert, hp, alookup, ih]

theorem upsert_upsert {α : Type} (l : List (String × α)) (k : String) (v w : α) :
    upsert (upsert l k v) k w = upsert l k w := by
  induction l with
  | nil => simp [upsert]
  | cons p rest ih =>
    by_cases h : p.1 = k
    · simp [upsert, h]
    · simp [upsert, h, ih]

theorem upsert_keys_of_mem {α : Type} (l : List (String × α)) (k : String) (v w : α)
    (h : alookup l k = some v) : (upsert l k w).map Prod.fst = l.map Prod.fst := by
  induction l with
  | nil => simp [alookup] at h
  | cons p rest ih =>
    by_cases hp : p.1 = k
    · simp [upsert, hp]
    · simp [alookup, hp] at h
      simp [upsert, hp, ih h]

theorem alookup_mem {α : Type} (l : List (String × α)) (k : String) (v : α)
    (h : alookup l k = some v) : (k, v) ∈ l := by
  induction l with
  | nil => simp [alookup] at h
  | cons p rest ih =>
    obtain ⟨pk, pv⟩ := p
    by_cases hp : pk = k
    · subst hp
      simp only [alookup, if_pos] at h
      cases h
      exact List.mem_cons_self _ _
    · simp only [alookup, hp, if_false] at h
      exact List.mem_cons_of_mem _ (ih h)

theorem mem_keys_of_alookup {α : Type} (l : List (String × α)) (k : String) (v : α)
    (h : alookup l k = some v) : k ∈ l.map Prod.fst := by
  have := alookup_mem l k v h
  exact List.mem_map.2 ⟨(k, v), this, rfl⟩

theorem forall_mem_upsert {α : Type} (P : α → Prop) (l : List (String × α)) (k : String)
    (v : α) (h1 : ∀ p ∈ l, P p.2) (h2 : P v) : ∀ p ∈ upsert l k v, P p.2 := by
  induction l with
  | nil =>
    intro p hp
    simp [upsert] at hp
    simp [hp, h2]
  | cons q rest ih =>
    intro p hp
    by_cases hq : q.1 = k
    · simp [upsert, hq] at hp
      rcases hp with hp | hp
      · simp [hp, h2]
      · exact h1 p (List.mem_cons_of_mem q hp)
    · simp only [upsert, hq, if_false, List.mem_cons] at hp
      rcases hp with hp | hp
      · exact h1 p (hp ▸ List.mem_cons_self q rest)
      · exact ih (fun p hp => h1 p (List.mem_cons_of_mem q hp)) p hp

theorem filterMap_ext {α β : Type} (l : List α) (f g : α → Option β)
    (h : ∀ a ∈ l, f a = g a) : l.filterMap f = l.filterMap g := by
  induction l with
  | nil => rfl
  | cons a rest ih =>
    simp only [List.filterMap_cons]
    rw [h a (List.mem_cons_self a rest),
        ih (fun a ha => h a (List.mem_cons_of_mem _ ha))]

/-! ### Shape lemmas for the operations -/

theorem get_root_path_fst (s : ManagerState) (language : String) :
    (get_root_path s language).1 = root_path_value s language := by
  unfold get_root_path root_path_value
  split
  · rfl
  · split
    · split <;> rfl
    · rfl

theorem get_root_path_shape (s : ManagerState) (language : String) :
    ∃ fs extra, (get_root_path s language).2 =
        { s with fsExists := fs, trace := s.trace ++ extra } ∧
      ∀ e ∈ extra, e = Event.mkdirCall s.confPath := by
  unfold get_root_path
  split
  · exact ⟨s.fsExists, [], by simp, by simp⟩
  · split
    · split
      · exact ⟨s.fsExists, [], by simp, by simp⟩
      · exact ⟨s.confPath :: s.fsExists, [Event.mkdirCall s.confPath], rfl, by simp⟩
    · exact ⟨s.fsExists, [], by simp, by simp⟩

theorem close_client_of_lookup (s : ManagerState) (language : String) (rec : ClientRecord)
    (h : alookup s.clients language = some rec) :
    close_client s language =
      { s with
          clients := upsert s.clients language { rec with status := Status.stopped },
          trace := s.trace ++
            (if rec.status = Status.running then [Event.clientStop language] else []) } := by
  unfold close_client
  rw [h]
  by_cases hr : rec.status = Status.running
  · simp [hr]
  · simp [hr]

theorem close_client_none (s : ManagerState) (language : String)
    (h : alookup s.clients language = none) : close_client s language = s := by
  unfold close_client
  rw [h]

theorem close_client_queue (s : ManagerState) (language : String) :
    (close_client s language).registerQueue = s.registerQueue := by
  unfold close_client
  cases h : alookup s.clients language with
  | none => rfl
  | some rec => by_cases hr : rec.status = Status.running <;> simp [hr]

theorem close_client_lookup_other (s : ManagerState) (language k : String)
    (h : k ≠ language) :
    alookup (close_client s language).clients k = alookup s.clients k := by
  cases hl : alookup s.clients language with
  | none => rw [close_client_none s language hl]
  | some rec =>
    rw [close_client_of_lookup s language rec hl]
    exact alookup_upsert_ne _ _ _ _ h

theorem close_client_keys (s : ManagerState) (language : String) :
    (close_client s language).clients.map Prod.fst = s.clients.map Prod.fst := by
  cases hl : alookup s.clients language with
  | none => rw [close_client_none s language hl]
  | some rec =>
    rw [close_client_of_lookup s language rec hl]
    exact upsert_keys_of_mem _ _ _ _ hl

theorem start_client_stopped (s : ManagerState) (language : String) (rec : ClientRecord)
    (h : alookup s.clients language = some rec)
    (hci : s.ciTruthy = false)
    (hst : rec.status = Status.stopped)
    (hq : (alookup s.registerQueue language).getD [] = []) :
    ∃ fs extra, (∀ e ∈ extra, e = Event.mkdirCall s.confPath) ∧
      start_client s language =
        ({ s with
            clients := upsert s.clients language
              { status := Status.running,
                config := startedConfig s rec.config,
                inst := some { serverSettings := startedConfig s rec.config,
                               folder := root_path_value s language,
                               language := language,
                               pluginTypes := s.lspPlugins } },
            registerQueue := upsert s.registerQueue language [],
            fsExists := fs,
            trace := (s.trace ++ extra) ++ [Event.clientStart language] },
         Except.ok false) := by
  obtain ⟨fs, extra, hshape, hextra⟩ := get_root_path_shape s language
  refine ⟨fs, extra, hextra, ?_⟩
  have hcond : ¬ ((s.ciTruthy = true) ∧ ¬ (s.spyTestUseIntrospection = true)) := by
    simp [hci]
  simp only [start_client, h]
  rw [if_neg hcond, if_pos hst]
  simp only [hq]
  rw [get_root_path_fst, hshape]

theorem start_client_running (s : ManagerState) (language : String) (rec : ClientRecord)
    (h : alookup s.clients language = some rec)
    (hci : s.ciTruthy = false)
    (hrun : rec.status = Status.running) :
    start_client s language = (s, Except.ok true) := by
  have hcond : ¬ ((s.ciTruthy = true) ∧ ¬ (s.spyTestUseIntrospection = true)) := by
    simp [hci]
  have hns : ¬ rec.status = Status.stopped := by
    rw [hrun]
    intro hc
    cases hc
  simp only [start_client, h]
  rw [if_neg hcond, if_neg hns]

theorem start_client_unknown (s : ManagerState) (language : String)
    (h : alookup s.clients language = none) :
    start_client s language = (s, Except.ok false) := by
  simp only [start_client, h]

/-! ### Folding `close_client` over the client table (`shutdown`) -/

theorem foldl_close_lookup_notmem (ks : List String) (s : ManagerState) (k : String)
    (h : k ∉ ks) :
    alookup (ks.foldl close_client s).clients k = alookup s.clients k := by
  induction ks generalizing s with
  | nil => rfl
  | cons k0 rest ih =>
    have hk0 : k ≠ k0 := fun hh => h (hh ▸ List.mem_cons_self k0 rest)
    have hrest : k ∉ rest := fun hh => h (List.mem_cons_of_mem k0 hh)
    simp only [List.foldl_cons]
    rw [ih (close_client s k0) hrest, close_client_lookup_other s k0 k hk0]

theorem foldl_close_stopped (ks : List String) (s : ManagerState) (k : String)
    (hmem : k ∈ ks) (rec : ClientRecord)
    (h : alookup (ks.foldl close_client s).clients k = some rec) :
    rec.status = Status.stopped := by
  induction ks generalizing s with
  | nil => cases hmem
  | cons k0 rest ih =>
    simp only [List.foldl_cons] at h
    by_cases hk : k ∈ rest
    · exact ih (close_client s k0) hk h
    · have hk0 : k = k0 := by
        rcases List.mem_cons.1 hmem with hh | hh
        · exact hh
        · exact absurd hh hk
      subst hk0
      rw [foldl_close_lookup_notmem rest (close_client s k) k hk] at h
      cases hl : alookup s.clients k with
      | none =>
        rw [close_client_none s k hl] at h
        rw [hl] at h
        cases h
      | some rec0 =>
        rw [close_client_of_lookup s k rec0 hl] at h
        simp only [alookup_upsert_self] at h
        cases h
        rfl

theorem foldl_close_queue (ks : List String) (s : ManagerState) :
    (ks.foldl close_client s).registerQueue = s.registerQueue := by
  induction ks generalizing s with
  | nil => rfl
  | cons k0 rest ih =>
    simp only [List.foldl_cons]
    rw [ih (close_client s k0), close_client_queue]

theorem foldl_close_keys (ks : List String) (s : ManagerState) :
    (ks.foldl close_client s).clients.map Prod.fst = s.clients.map Prod.fst := by
  induction ks generalizing s with
  | nil => rfl
  | cons k0 rest ih =>
    simp only [List.foldl_cons]
    rw [ih (close_client s k0), close_client_keys]

theorem close_client_trace (s : ManagerState) (k : String) :
    (close_client s k).trace = s.trace ++ (stopEventFor s.clients k).toList := by
  cases hl : alookup s.clients k with
  | none =>
    rw [close_client_none s k hl]
    simp [stopEventFor, hl]
  | some rec =>
    rw [close_client_of_lookup s k rec hl]
    by_cases hr : rec.status = Status.running
    · simp [stopEventFor, hl, hr]
    · simp [stopEventFor, hl, hr]

theorem stopEventFor_close_other (s : ManagerState) (k0 k : String) (h : k ≠ k0) :
    stopEventFor (close_client s k0).clients k = stopEventFor s.clients k := by
  unfold stopEventFor
  rw [close_client_lookup_other s k0 k h]

theorem foldl_close_trace (ks : List String) (s : ManagerState) (hnd : ks.Nodup) :
    (ks.foldl close_client s).trace =
      s.trace ++ ks.filterMap (stopEventFor s.clients) := by
  induction ks generalizing s with
  | nil => simp
  | cons k0 rest ih =>
    have hk0 : k0 ∉ rest := (List.nodup_cons.1 hnd).1
    have hndr : rest.Nodup := (List.nodup_cons.1 hnd).2
    simp only [List.foldl_cons]
    rw [ih (close_client s k0) hndr]
    rw [close_client_trace s k0]
    rw [filterMap_ext rest (stopEventFor (close_client s k0).clients)
      (stopEventFor s.clients)
      (fun a ha => stopEventFor_close_other s k0 a (fun hh => hk0 (hh ▸ ha)))]
    rw [List.append_assoc]
    congr 1
    simp only [List.filterMap_cons]
    cases hsf : stopEventFor s.clients k0 with
    | none => simp
    | some e => simp

theorem keys_filterMap_stopEventFor (clients : List (String × ClientRecord))
    (hnd : (clients.map Prod.fst).Nodup) :
    (clients.map Prod.fst).filterMap (stopEventFor clients) = stopEvents clients := by
  induction clients with
  | nil => rfl
  | cons p rest ih =>
    obtain ⟨pk, prec⟩ := p
    simp only [List.map_cons] at hnd
    have hpk : pk ∉ rest.map Prod.fst := (List.nodup_cons.1 hnd).1
    have hndr : (rest.map Prod.fst).Nodup := (List.nodup_cons.1 hnd).2
    simp only [List.map_cons, List.filterMap_cons]
    have hlook : ∀ k ∈ rest.map Prod.fst,
        stopEventFor ((pk, prec) :: rest) k = stopEventFor rest k := by
      intro k hk
      have hne : ¬ pk = k := fun hh => hpk (hh ▸ hk)
      unfold stopEventFor
      simp only [alookup, hne, if_false]
    rw [filterMap_ext _ _ _ hlook, ih hndr]
    have hself : stopEventFor ((pk, prec) :: rest) pk =
        (if prec.status = Status.running then some (Event.clientStop pk) else none) := by
      unfold stopEventFor
      simp [alookup]
    rw [hself]
    by_cases hr : prec.status = Status.running
    · simp [hr, stopEvents]
    · simp [hr, stopEvents]

/-! ### Preservation of the record well-formedness invariant -/

theorem clientsOK_of_clients_eq (s t : ManagerState) (h : t.clients = s.clients)
    (hs : clientsOK s) : clientsOK t := by
  intro p hp
  exact hs p (h ▸ hp)

theorem register_plugin_type_clients (s : ManagerState) (t sig : String) :
    (register_plugin_type s t sig).clients = s.clients := rfl

theorem register_file_clients (s : ManagerState) (l f sig : String) :
    (register_file s l f sig).clients = s.clients := by
  cases h : alookup s.clients l with
  | none => simp [register_file, h]
  | some rec =>
    cases hi : rec.inst with
    | none => simp [register_file, h, hi]
    | some c => simp [register_file, h, hi]

theorem get_root_path_clients (s : ManagerState) (l : String) :
    (get_root_path s l).2.clients = s.clients := by
  obtain ⟨fs, extra, hshape, _⟩ := get_root_path_shape s l
  rw [hshape]

theorem send_request_clients (s : ManagerState) (l r p : String) :
    (send_request s l r p).clients = s.clients := by
  unfold send_request
  cases alookup s.clients l with
  | none => rfl
  | some rec =>
    by_cases hr : rec.status = Status.running
    · simp [hr]
    · simp [hr]

theorem clientsOK_upsert (s : ManagerState) (k : String) (v : ClientRecord)
    (hs : clientsOK s) (hv : recordOK v) :
    ∀ p ∈ upsert s.clients k v, recordOK p.2 :=
  forall_mem_upsert recordOK s.clients k v hs hv

theorem clientsOK_close (s : ManagerState) (l : String) (hs : clientsOK s) :
    clientsOK (close_client s l) := by
  cases hl : alookup s.clients l with
  | none =>
    rw [close_client_none s l hl]
    exact hs
  | some rec =>
    rw [close_client_of_lookup s l rec hl]
    intro p hp
    refine forall_mem_upsert recordOK s.clients l _ hs ?_ p hp
    intro hr
    cases hr

theorem clientsOK_start (s : ManagerState) (l : String) (hs : clientsOK s) :
    clientsOK (start_client s l).1 := by
  cases hl : alookup s.clients l with
  | none =>
    rw [start_client_unknown s l hl]
    exact hs
  | some rec =>
    simp only [start_client, hl]
    by_cases hci : (s.ciTruthy = true) ∧ ¬ (s.spyTestUseIntrospection = true)
    · rw [if_pos hci]
      exact hs
    · rw [if_neg hci]
      by_cases hst : rec.status = Status.stopped
      · rw [if_pos hst]
        cases hq : (alookup s.registerQueue l).getD [] with
        | nil =>
          intro p hp
          dsimp only at hp
          rw [get_root_path_clients s l] at hp
          refine forall_mem_upsert recordOK s.clients l _ hs ?_ p hp
          intro _
          rfl
        | cons e rest =>
          intro p hp
          dsimp only at hp
          rw [get_root_path_clients s l] at hp
          refine forall_mem_upsert recordOK s.clients l _ hs ?_ p hp
          intro _
          rfl
      · rw [if_neg hst]
        exact hs

theorem clientsOK_reinit_one (s : ManagerState) (l : String) (hs : clientsOK s) :
    clientsOK (reinit_one s l) := by
  cases hl : alookup s.clients l with
  | none =>
    simp only [reinit_one, hl]
    exact hs
  | some rec =>
    simp only [reinit_one, hl]
    by_cases hr : rec.status = Status.running
    · rw [if_pos hr]
      cases hi : rec.inst with
      | none => exact hs
      | some c =>
        intro p hp
        dsimp only at hp
        rw [get_root_path_clients s l] at hp
        refine forall_mem_upsert recordOK s.clients l _ hs ?_ p hp
        intro _
        rfl
    · rw [if_neg hr]
      exact hs

theorem clientsOK_foldl {β : Type} (f : ManagerState → β → ManagerState)
    (hf : ∀ s x, clientsOK s → clientsOK (f s x)) (l : List β) (s : ManagerState)
    (hs : clientsOK s) : clientsOK (l.foldl f s) := by
  induction l generalizing s with
  | nil => exact hs
  | cons x rest ih => exact ih (f s x) (hf s x hs)

theorem clientsOK_shutdown (s : ManagerState) (hs : clientsOK s) :
    clientsOK (shutdownManager s) :=
  clientsOK_foldl close_client (fun s x h => clientsOK_close s x h)
    (s.clients.map Prod.fst) s hs

theorem clientsOK_reinitialize (s : ManagerState) (hs : clientsOK s) :
    clientsOK (reinitialize_all_clients s) :=
  clientsOK_foldl reinit_one (fun s x h => clientsOK_reinit_one s x h)
    (s.clients.map Prod.fst) s hs

theorem clientsOK_update_client_status (s : ManagerState) (act : List String)
    (hs : clientsOK s) : clientsOK (update_client_status s act) := by
  refine clientsOK_foldl _ ?_ (s.clients.map Prod.fst) s hs
  intro s x h
  by_cases hx : x ∈ act
  · simp only [if_pos hx]
    exact h
  · simp only [if_neg hx]
    exact clientsOK_close s x h

theorem recordOK_fresh (cfg : ServerConfig) :
    recordOK { status := Status.stopped, config := cfg, inst := none } := by
  intro h
  cases h

theorem clientsOK_usl_go (lspLanguages : List String)
    (conf : List (String × ServerConfig)) (s : ManagerState) (hs : clientsOK s) :
    clientsOK (usl_go lspLanguages s conf).1 := by
  induction conf generalizing s with
  | nil => exact hs
  | cons p rest ih =>
    obtain ⟨option, cfg⟩ := p
    by_cases hmem : option ∈ lspLanguages.map strLower
    · cases hl : alookup s.clients option with
      | none =>
        simp only [usl_go, if_pos hmem, hl]
        refine ih _ ?_
        intro q hq
        dsimp only at hq
        exact forall_mem_upsert recordOK s.clients option _ hs (recordOK_fresh cfg) q hq
      | some current =>
        simp only [usl_go, if_pos hmem, hl]
        by_cases hrn : restartNeeded current.config cfg = true
        · rw [if_pos hrn]
          by_cases hst : current.status = Status.stopped
          · rw [if_pos hst]
            refine ih _ ?_
            intro q hq
            dsimp only at hq
            exact forall_mem_upsert recordOK s.clients option _ hs (recordOK_fresh cfg) q hq
          · rw [if_neg hst]
            have h1 : clientsOK (close_client s option) := clientsOK_close s option hs
            have h2 : clientsOK { close_client s option with
                clients := upsert (close_client s option).clients option
                  { status := Status.stopped, config := cfg, inst := none } } := by
              intro q hq
              dsimp only at hq
              exact forall_mem_upsert recordOK (close_client s option).clients option _
                h1 (recordOK_fresh cfg) q hq
            have h3 := clientsOK_start _ option h2
            rcases hstart : start_client { close_client s option with
                clients := upsert (close_client s option).clients option
                  { status := Status.stopped, config := cfg, inst := none } } option
              with ⟨s3, e⟩
            rw [hstart] at h3
            cases e with
            | ok b => exact ih s3 h3
            | error msg => exact h3
        · rw [if_neg hrn]
          by_cases hr : current.status = Status.running
          · rw [if_pos hr]
            refine ih _ ?_
            intro q hq
            exact hs q hq
          · rw [if_neg hr]
            exact ih s hs
    · simp only [usl_go, if_neg hmem]
      exact ih s hs

theorem clientsOK_step (s : ManagerState) (op : Op) (hs : clientsOK s) :
    clientsOK (step s op) := by
  cases op with
  | registerPluginType t sig => exact hs
  | registerFile l f sig =>
    exact clientsOK_of_clients_eq s _ (register_file_clients s l f sig) hs
  | getRootPath l =>
    exact clientsOK_of_clients_eq s _ (get_root_path_clients s l) hs
  | reinitializeAll => exact clientsOK_reinitialize s hs
  | startClient l => exact clientsOK_start s l hs
  | closeClient l => exact clientsOK_close s l hs
  | shutdownAll => exact clientsOK_shutdown s hs
  | updateServerList langs conf => exact clientsOK_usl_go langs conf s hs
  | updateClientStatus act => exact clientsOK_update_client_status s act hs
  | sendRequest l r p =>
    exact clientsOK_of_clients_eq s _ (send_request_clients s l r p) hs

theorem clientsOK_runOps (s : ManagerState) (ops : List Op) (hs : clientsOK s) :
    clientsOK (runOps s ops) := by
  induction ops generalizing s with
  | nil => exact hs
  | cons op rest ih => exact ih (step s op) (clientsOK_step s op hs)

theorem clientsOK_init (conf : List (String × ServerConfig)) (env : Env) :
    clientsOK (initManager conf env) := by
  intro p hp
  simp only [initManager, List.mem_map] at hp
  obtain ⟨q, _, hq⟩ := hp
  rw [← hq]
  intro h
  cases h

/-! ### Claims -/

/-- Claim C1 (code bug, evaluated at the failing input): with the known
language `python` Stopped and one queued registration, `start_client` raises
AttributeError from the drain loop (manager.py line 152 calls `register_file`
on the record dict instead of on `language_client['instance']`): no
registration ever reaches the instance, and the pending queue is not cleared
(while the status flip to RUNNING and the instance creation, made before the
raise, persist). The spec instead requires the queued `(filename, target)`
pairs to be delivered to the new instance in FIFO order and the queue to be
empty afterwards. -/
theorem C1_queue_drain_attribute_error :
    (start_client (register_file s0 "python" "a.py" "sig") "python").2 =
      Except.error "AttributeError: dict object has no attribute register_file" ∧
    (start_client (register_file s0 "python" "a.py" "sig") "python").1.trace.filter
      isRegisterFileEvent = [] ∧
    alookup (start_client (register_file s0 "python" "a.py" "sig") "python").1.registerQueue
      "python" = some [("a.py", "sig")] ∧
    (alookup (start_client (register_file s0 "python" "a.py" "sig") "python").1.clients
      "python").map ClientRecord.status = some Status.running :=
  ⟨rfl, by decide, by decide, by decide⟩

/-- Claim C2, counterexample: `start_client` on the Stopped record for
`python` returns False although it performs the Stopped-to-Running
transition, and a second `start_client` issued while RUNNING returns True —
the opposite of the claim, because line 130 computes `started = status ==
RUNNING` before the transition. -/
theorem C2_counterexample_start_return :
    (start_client s0 "python").2 = Except.ok false ∧
    (alookup (start_client s0 "python").1.clients "python").map ClientRecord.status =
      some Status.running ∧
    (start_client (start_client s0 "python").1 "python").2 = Except.ok true :=
  ⟨rfl, by decide, rfl⟩

/-- Claim C2 (amended): for a known language with CI suppression off and an
empty pending queue, `start_client` returns whether the client was *already*
Running before the call: on a Stopped record it performs the transition to
Running yet returns False, and on a Running record it is a no-op returning
True. -/
theorem C2_start_returns_already_running (s : ManagerState) (language : String)
    (rec : ClientRecord)
    (h : alookup s.clients language = some rec)
    (hci : s.ciTruthy = false)
    (hq : (alookup s.registerQueue language).getD [] = []) :
    (rec.status = Status.stopped →
      (start_client s language).2 = Except.ok false ∧
      (alookup (start_client s language).1.clients language).map ClientRecord.status =
        some Status.running) ∧
    (rec.status = Status.running →
      start_client s language = (s, Except.ok true)) := by
  constructor
  · intro hst
    obtain ⟨fs, extra, hex, heq⟩ := start_client_stopped s language rec h hci hst hq
    rw [heq]
    refine ⟨rfl, ?_⟩
    dsimp only
    rw [alookup_upsert_self]
    rfl
  · intro hrun
    exact start_client_running s language rec h hci hrun

/-- Witness for C2: the amended behaviour at the concrete manager `s0`. -/
theorem C2_start_returns_already_running_witness :
    ((start_client s0 "python").2 = Except.ok false ∧
      (alookup (start_client s0 "python").1.clients "python").map ClientRecord.status =
        some Status.running) ∧
    start_client sRun "python" = (sRun, Except.ok true) :=
  ⟨(C2_start_returns_already_running s0 "python" pyRec0 (by decide) (by decide)
      (by decide)).1 rfl,
   (C2_start_returns_already_running sRun "python" pyRecRun (by decide) (by decide)
      (by decide)).2 rfl⟩

/-- Claim C3, counterexample: after `start_client("python")` followed by
`close_client("python")` the record has status Stopped but its `instance`
slot still holds the old client — `close_client` (manager.py lines 197-205)
never clears the slot, so `instance` non-empty iff RUNNING fails, and stop
does not discard the instance. -/
theorem C3_counterexample_stale_instance :
    (alookup sClosed.clients "python").map ClientRecord.status = some Status.stopped ∧
    ((alookup sClosed.clients "python").bind ClientRecord.inst).isSome = true := by
  exact ⟨by decide, by decide⟩

/-- Claim C3 (amended): in every state reachable by manager operations from a
freshly constructed manager, a record with status RUNNING holds a live
instance (the other direction fails: stop leaves the slot populated, see the
counterexample). -/
theorem C3_running_instance_invariant (conf : List (String × ServerConfig)) (env : Env)
    (ops : List Op) (lang : String) (rec : ClientRecord)
    (h : alookup (runOps (initManager conf env) ops).clients lang = some rec)
    (hrun : rec.status = Status.running) : rec.inst.isSome = true :=
  clientsOK_runOps (initManager conf env) ops (clientsOK_init conf env) (lang, rec)
    (alookup_mem _ lang rec h) hrun

/-- Witness for C3: the invariant instantiated after one concrete start. -/
theorem C3_running_instance_invariant_witness :
    alookup (runOps (initManager [("python", pyCfg)] env0) [Op.startClient "python"]).clients
        "python" = some pyRecRun ∧ pyRecRun.inst.isSome = true :=
  ⟨by decide,
   C3_running_instance_invariant [("python", pyCfg)] env0 [Op.startClient "python"]
     "python" pyRecRun (by decide) (by decide)⟩

/-- Claim C4, counterexample: with `python` RUNNING, a refresh differing only
in the per-plugin `configurations` field does push the new plugin settings to
the instance but does *not* replace the stored configuration — after the
refresh the record still holds the old configuration (manager.py lines
186-190 never assign to `self.clients[language]` in the no-restart branch),
contradicting the claim that the stored configuration is replaced with the
new one. -/
theorem C4_counterexample_config_not_replaced :
    (alookup (update_server_list ["Python"] [("python", pyCfgB)] sRun).1.clients
      "python").map ClientRecord.config = some pyCfg ∧
    pyCfg ≠ pyCfgB ∧
    (update_server_list ["Python"] [("python", pyCfgB)] sRun).1.trace =
      sRun.trace ++ [Event.clientSendConfigurations "python" "cfgB"] :=
  ⟨by decide, by decide, by decide⟩

/-- Claim C4 (amended): a refresh of a known language in which no
restart-triggering field (cmd, args, host, port, external) differs performs
no stop and no start and leaves the stored configuration unchanged; if the
record is RUNNING the instance receives exactly one
`send_plugin_configurations` call with the new plugin-configuration subset,
and if it is Stopped nothing happens at all. -/
theorem C4_nonrestart_refresh (s : ManagerState) (L : List String) (lang : String)
    (rec : ClientRecord) (cfgNew : ServerConfig)
    (hmem : lang ∈ L.map strLower)
    (h : alookup s.clients lang = some rec)
    (hnr : restartNeeded rec.config cfgNew = false) :
    update_server_list L [(lang, cfgNew)] s =
      (if rec.status = Status.running then
        { s with trace := s.trace ++ [Event.clientSendConfigurations lang cfgNew.configurations] }
       else s, Except.ok ()) := by
  unfold update_server_list
  simp only [usl_go, if_pos hmem, h]
  rw [if_neg (by rw [hnr]; intro hc; cases hc)]
  by_cases hr : rec.status = Status.running
  · rw [if_pos hr, if_pos hr]
  · rw [if_neg hr, if_neg hr]

/-- Witness for C4: the amended behaviour at the concrete running manager. -/
theorem C4_nonrestart_refresh_witness :
    update_server_list ["Python"] [("python", pyCfgB)] sRun =
      ({ sRun with trace := sRun.trace ++
          [Event.clientSendConfigurations "python" "cfgB"] }, Except.ok ()) := by
  have h := C4_nonrestart_refresh sRun ["Python"] "python" pyRecRun pyCfgB
    (by decide) (by decide) (by decide)
  rw [h]
  rfl

/-- Claim C5, counterexample: in the reachable state obtained by
`start_client("python")` then `close_client("python")` the record is Stopped,
yet `register_file` does not append to the pending queue: it forwards the
registration to the stale instance left in the slot, because manager.py line
67 dispatches on `instance is None`, not on `status`. -/
theorem C5_counterexample_stale_forward :
    (alookup sClosed.clients "python").map ClientRecord.status = some Status.stopped ∧
    alookup (register_file sClosed "python" "b.py" "t").registerQueue "python" = some [] ∧
    (register_file sClosed "python" "b.py" "t").trace =
      sClosed.trace ++ [Event.clientRegisterFile "python" "b.py" "t"] :=
  ⟨by decide, by decide, by decide⟩

/-- Claim C5 (amended): `register_file` is a silent no-op for an unknown
language; for a known language it dispatches on the `instance` slot rather
than on `status`: with an empty slot the pair is appended to that language's
pending queue, and with a non-empty slot (which coincides with RUNNING except
after a stop, which leaves a stale instance) it is forwarded immediately to
that instance. -/
theorem C5_register_file_dispatch (s : ManagerState) (language filename signal : String) :
    (alookup s.clients language = none → register_file s language filename signal = s) ∧
    (∀ rec, alookup s.clients language = some rec → rec.inst = none →
      register_file s language filename signal =
        { s with registerQueue := upsert s.registerQueue language (((alookup s.registerQueue language).getD []) ++ [(filename, signal)]) }) ∧
    (∀ rec c, alookup s.clients language = some rec → rec.inst = some c →
      register_file s language filename signal =
        { s with trace := s.trace ++ [Event.clientRegisterFile c.language filename signal] }) := by
  refine ⟨?_, ?_, ?_⟩
  · intro h
    simp [register_file, h]
  · intro rec h hi
    simp [register_file, h, hi]
  · intro rec c h hi
    simp [register_file, h, hi]

/-- Witness for C5: a registration for Stopped `python` with an empty
instance slot lands in the pending queue. -/
theorem C5_register_file_dispatch_witness :
    register_file s0 "python" "a.py" "sig" =
      { s0 with registerQueue := upsert s0.registerQueue "python" [("a.py", "sig")] } := by
  have h := (C5_register_file_dispatch s0 "python" "a.py" "sig").2.1 pyRec0
    (by decide) rfl
  rw [h]
  rfl

/-- Claim C6: a refresh of a known RUNNING language in which a
restart-triggering field differs performs exactly one stop followed by
exactly one start (no other lifecycle events for that language), and the new
instance is constructed from the refreshed configuration — with its port
re-allocated by `select_port` when not external, per start_client — not from
the old stored one. Stated for a single-option refresh list, with CI
suppression off and an empty pending queue. -/
theorem C6_restart_refresh (s : ManagerState) (L : List String) (lang : String)
    (rec : ClientRecord) (cfgNew : ServerConfig)
    (hmem : lang ∈ L.map strLower)
    (h : alookup s.clients lang = some rec)
    (hrun : rec.status = Status.running)
    (hrn : restartNeeded rec.config cfgNew = true)
    (hci : s.ciTruthy = false)
    (hq : (alookup s.registerQueue lang).getD [] = []) :
    (update_server_list L [(lang, cfgNew)] s).2 = Except.ok () ∧
    ((update_server_list L [(lang, cfgNew)] s).1.trace.drop s.trace.length).filter
        (lifecycleEvent lang) = [Event.clientStop lang, Event.clientStart lang] ∧
    alookup (update_server_list L [(lang, cfgNew)] s).1.clients lang =
      some { status := Status.running, config := startedConfig s cfgNew,
             inst := some { serverSettings := startedConfig s cfgNew,
                            folder := root_path_value s lang, language := lang,
                            pluginTypes := s.lspPlugins } } := by
  have hns : ¬ rec.status = Status.stopped := by
    rw [hrun]
    intro hc
    cases hc
  have hs1 : close_client s lang =
      { s with clients := upsert s.clients lang { rec with status := Status.stopped },
               trace := s.trace ++ [Event.clientStop lang] } := by
    rw [close_client_of_lookup s lang rec h, if_pos hrun]
  have hstate : { close_client s lang with
      clients := upsert (close_client s lang).clients lang
        { status := Status.stopped, config := cfgNew, inst := none } } =
      { s with
        clients := upsert s.clients lang
          { status := Status.stopped, config := cfgNew, inst := none },
        trace := s.trace ++ [Event.clientStop lang] } := by
    rw [hs1]
    dsimp only
    rw [upsert_upsert]
  obtain ⟨fs, extra, hextra, heq⟩ := start_client_stopped
    { s with
      clients := upsert s.clients lang
        { status := Status.stopped, config := cfgNew, inst := none },
      trace := s.trace ++ [Event.clientStop lang] } lang
    { status := Status.stopped, config := cfgNew, inst := none }
    (alookup_upsert_self s.clients lang _) hci rfl hq
  unfold update_server_list
  simp only [usl_go, if_pos hmem, h]
  rw [if_pos hrn, if_neg hns]
  rw [hstate, heq]
  refine ⟨rfl, ?_, ?_⟩
  · dsimp only
    have htr : ((s.trace ++ [Event.clientStop lang]) ++ extra) ++ [Event.clientStart lang] =
        s.trace ++ ([Event.clientStop lang] ++ (extra ++ [Event.clientStart lang])) := by
      simp [List.append_assoc]
    rw [htr, List.drop_left]
    rw [List.filter_append, List.filter_append]
    have h1 : [Event.clientStop lang].filter (lifecycleEvent lang) =
        [Event.clientStop lang] := by
      simp [lifecycleEvent]
    have h2 : extra.filter (lifecycleEvent lang) = [] := by
      rw [List.filter_eq_nil_iff]
      intro e he
      rw [hextra e he]
      simp [lifecycleEvent]
    have h3 : [Event.clientStart lang].filter (lifecycleEvent lang) =
        [Event.clientStart lang] := by
      simp [lifecycleEvent]
    rw [h1, h2, h3]
    rfl
  · dsimp only
    rw [upsert_upsert, alookup_upsert_self]
    rfl

/-- Witness for C6: concrete restart refresh — `python` RUNNING under `pyCfg`
and refreshed with `pyCfgC`, which differs in the port field. -/
theorem C6_restart_refresh_witness :
    (update_server_list ["Python"] [("python", pyCfgC)] sRun).2 = Except.ok () ∧
    ((update_server_list ["Python"] [("python", pyCfgC)] sRun).1.trace.drop
        sRun.trace.length).filter (lifecycleEvent "python") =
      [Event.clientStop "python", Event.clientStart "python"] ∧
    alookup (update_server_list ["Python"] [("python", pyCfgC)] sRun).1.clients "python" =
      some { status := Status.running, config := startedConfig sRun pyCfgC,
             inst := some { serverSettings := startedConfig sRun pyCfgC,
                            folder := root_path_value sRun "python", language := "python",
                            pluginTypes := sRun.lspPlugins } } :=
  C6_restart_refresh sRun ["Python"] "python" pyRecRun pyCfgC (by decide) (by decide)
    (by decide) (by decide) (by decide) (by decide)

/-- Claim C7: `shutdown` leaves every record Stopped, preserves the set of
records, and invokes the instance stop operation exactly once per previously
RUNNING language (in table order) and never for languages that were not
running — the appended trace is exactly `stopEvents`. -/
theorem C7_shutdown_stops_all (s : ManagerState)
    (hnd : (s.clients.map Prod.fst).Nodup) :
    (shutdownManager s).trace = s.trace ++ stopEvents s.clients ∧
    (shutdownManager s).clients.map Prod.fst = s.clients.map Prod.fst ∧
    ∀ lang rec, alookup (shutdownManager s).clients lang = some rec →
      rec.status = Status.stopped := by
  refine ⟨?_, ?_, ?_⟩
  · unfold shutdownManager
    rw [foldl_close_trace _ _ hnd, keys_filterMap_stopEventFor s.clients hnd]
  · exact foldl_close_keys _ s
  · intro lang rec hl
    by_cases hmem : lang ∈ s.clients.map Prod.fst
    · exact foldl_close_stopped _ s lang hmem rec hl
    · rw [shutdownManager, foldl_close_lookup_notmem _ s lang hmem] at hl
      exact absurd (mem_keys_of_alookup s.clients lang rec hl) hmem

/-- Witness for C7: a two-language manager with only `python` RUNNING. -/
theorem C7_shutdown_stops_all_witness :
    (shutdownManager sTwoRun).trace = sTwoRun.trace ++ stopEvents sTwoRun.clients ∧
    (shutdownManager sTwoRun).clients.map Prod.fst = sTwoRun.clients.map Prod.fst ∧
    (alookup (shutdownManager sTwoRun).clients "python").map ClientRecord.status =
      some Status.stopped := by
  have h := C7_shutdown_stops_all sTwoRun (by decide)
  refine ⟨h.1, h.2.1, ?_⟩
  cases hl : alookup (shutdownManager sTwoRun).clients "python" with
  | none => exact absurd hl (by decide)
  | some rec => simp [h.2.2 "python" rec hl]

/-- Claim C8: with no active project, root-path resolution for `python`
returns the fixed `lsp_root_path` directory inside the configuration folder,
creating it when absent; a second call returns the same path and changes
nothing (no second mkdir). Every other language gets the
current-working-directory-or-home fallback, with no side effect. -/
theorem C8_root_path_python_fallback (s : ManagerState)
    (h : truthyPath s.projectPath = false) :
    ((get_root_path s "python").1 = s.confPath ∧
     (get_root_path s "python").2.fsExists.contains s.confPath = true ∧
     get_root_path (get_root_path s "python").2 "python" =
       (s.confPath, (get_root_path s "python").2)) ∧
    (∀ language, language ≠ "python" →
      get_root_path s language = (s.cwdOrHome, s)) := by
  have hnp : ¬ truthyPath s.projectPath = true := by
    rw [h]
    intro hc
    cases hc
  constructor
  · by_cases hc : s.fsExists.contains s.confPath = true
    · have hval : get_root_path s "python" = (s.confPath, s) := by
        unfold get_root_path
        rw [if_neg hnp, if_pos rfl, if_pos hc]
      refine ⟨by rw [hval], ?_, ?_⟩
      · rw [hval]
        exact hc
      · rw [hval]
        dsimp only
        exact hval
    · have hval : get_root_path s "python" = (s.confPath,
          { s with fsExists := s.confPath :: s.fsExists,
                   trace := s.trace ++ [Event.mkdirCall s.confPath] }) := by
        unfold get_root_path
        rw [if_neg hnp, if_pos rfl, if_neg hc]
      have hc2 : (s.confPath :: s.fsExists).contains s.confPath = true := by
        simp [List.contains]
      refine ⟨by rw [hval], ?_, ?_⟩
      · rw [hval]
        exact hc2
      · rw [hval]
        dsimp only
        unfold get_root_path
        dsimp only
        rw [if_neg hnp, if_pos rfl, if_pos hc2]
  · intro language hl
    unfold get_root_path
    rw [if_neg hnp, if_neg hl]

/-- Witness for C8: the concrete manager `s0` (no project) for `python` and
for another language. -/
theorem C8_root_path_python_fallback_witness :
    ((get_root_path s0 "python").1 = s0.confPath ∧
     (get_root_path s0 "python").2.fsExists.contains s0.confPath = true ∧
     get_root_path (get_root_path s0 "python").2 "python" =
       (s0.confPath, (get_root_path s0 "python").2)) ∧
    get_root_path s0 "julia" = (s0.cwdOrHome, s0) := by
  have h := C8_root_path_python_fallback s0 (by decide)
  exact ⟨h.1, h.2 "julia" (by decide)⟩

/-- Claim C9: `send_request` is a silent no-op — state unchanged, nothing
queued, no collaborator call — when the language is unknown or its record is
Stopped (even a stale instance left by a stop receives nothing, since the
dispatch is on `status`); only a RUNNING record's instance receives the
request. -/
theorem C9_send_request_dispatch (s : ManagerState) (language request params : String) :
    (alookup s.clients language = none →
      send_request s language request params = s) ∧
    (∀ rec, alookup s.clients language = some rec → rec.status = Status.stopped →
      send_request s language request params = s) ∧
    (∀ rec, alookup s.clients language = some rec → rec.status = Status.running →
      send_request s language request params =
        { s with trace := s.trace ++ [Event.clientPerformRequest language request params] }) := by
  refine ⟨?_, ?_, ?_⟩
  · intro h
    simp [send_request, h]
  · intro rec h hst
    have hnr : ¬ rec.status = Status.running := by
      rw [hst]
      intro hc
      cases hc
    simp [send_request, h, hnr]
  · intro rec h hst
    simp [send_request, h, hst]

/-- Witness for C9: a Stopped record ignores the request, a RUNNING record
forwards it. -/
theorem C9_send_request_dispatch_witness :
    send_request s0 "python" "req" "params" = s0 ∧
    send_request sRun "python" "req" "params" =
      { sRun with trace := sRun.trace ++
          [Event.clientPerformRequest "python" "req" "params"] } :=
  ⟨(C9_send_request_dispatch s0 "python" "req" "params").2.1 pyRec0 (by decide) rfl,
   (C9_send_request_dispatch sRun "python" "req" "params").2.2 pyRecRun (by decide) rfl⟩

/-- Claim C10: the reconciler touches a configured option only when its name
is in the lower-cased `LSP_LANGUAGES` list — any other option is skipped
wholesale (the refresh is a complete no-op for it) — while the constructor
creates a record for every configured option with no such filter. -/
theorem C10_update_server_list_filter :
    (∀ (L : List String) (option : String) (cfg : ServerConfig) (s : ManagerState),
      option ∉ L.map strLower →
      update_server_list L [(option, cfg)] s = (s, Except.ok ())) ∧
    (∀ (L : List String) (option : String) (cfg : ServerConfig) (s : ManagerState),
      option ∈ L.map strLower → alookup s.clients option = none →
      alookup (update_server_list L [(option, cfg)] s).1.clients option =
        some { status := Status.stopped, config := cfg, inst := none }) ∧
    (∀ (conf : List (String × ServerConfig)) (env : Env) (option : String)
        (cfg : ServerConfig), (option, cfg) ∈ conf →
      (alookup (initManager conf env).clients option).isSome = true) := by
  refine ⟨?_, ?_, ?_⟩
  · intro L option cfg s hmem
    unfold update_server_list
    simp only [usl_go, if_neg hmem]
  · intro L option cfg s hmem hnone
    unfold update_server_list
    simp only [usl_go, if_pos hmem, hnone]
    rw [alookup_upsert_self]
  · intro conf env option cfg hmem
    induction conf with
    | nil => cases hmem
    | cons p rest ih =>
      obtain ⟨pk, pc⟩ := p
      rcases List.mem_cons.1 hmem with hh | hh
      · cases hh
        simp [initManager, alookup]
      · by_cases hpk : pk = option
        · simp [initManager, alookup, hpk]
        · simp only [initManager, List.map_cons, alookup, hpk, if_false]
          exact ih hh

/-- Witness for C10: an unmatched option is skipped, a matched unknown one
gets a fresh Stopped record, and the constructor registers any option. -/
theorem C10_update_server_list_filter_witness :
    update_server_list ["Python"] [("fortran", pyCfg)] s0 = (s0, Except.ok ()) ∧
    alookup (update_server_list ["Python"] [("python", pyCfg)]
        (initManager [] env0)).1.clients "python" =
      some { status := Status.stopped, config := pyCfg, inst := none } ∧
    (alookup (initManager [("fortran", pyCfg)] env0).clients "fortran").isSome = true :=
  ⟨C10_update_server_list_filter.1 ["Python"] "fortran" pyCfg s0 (by decide),
   C10_update_server_list_filter.2.1 ["Python"] "python" pyCfg (initManager [] env0)
     (by decide) (by decide),
   C10_update_server_list_filter.2.2 [("fortran", pyCfg)] env0 "fortran" pyCfg
     (by decide)⟩
